import Mathlib

/-!
Shallow embedding of `mortal/convert_kaggle_dataset.py`: the converter that
rewrites Kaggle dataset rows (mahjong decision snapshots) into synthetic mjai
event logs.  Pure Python functions become Lean functions; fallible Python code
(raising `ValueError` / `RuntimeError` / `KeyError` / `IndexError`) returns
`Except Err`.  Python `dict.get(key, default)` is modelled by `Option` fields
read with `Option.getD`; Python list indexing (with its negative-index
wrap-around) is modelled by `pyGet` / `pySet`.
-/

namespace Mortal

instance {α β : Type} [DecidableEq α] [DecidableEq β] : DecidableEq (Except α β) :=
  fun a b =>
    match a, b with
    | .ok x, .ok y =>
      if h : x = y then .isTrue (congrArg Except.ok h)
      else .isFalse (fun hh => h (Except.ok.inj hh))
    | .error x, .error y =>
      if h : x = y then .isTrue (congrArg Except.error h)
      else .isFalse (fun hh => h (Except.error.inj hh))
    | .ok _, .error _ => .isFalse (fun hh => Except.noConfusion hh)
    | .error _, .ok _ => .isFalse (fun hh => Except.noConfusion hh)

/-- Error taxonomy of the converter.  `invalidTileId` stands for the two
`ValueError`s of `tile_id_to_mjai`, `malformedAction` for the `RuntimeError`s
raised by the event builders, `keyError` / `indexError` for Python's own
`KeyError` / `IndexError` on direct subscripting, `emptyCategory` for the
`RuntimeError` raised on an empty table. -/
inductive Err where
  | invalidTileId
  | malformedAction
  | keyError
  | indexError
  | emptyCategory
deriving DecidableEq, Repr

/-- Source list `MJAI_TILES`: the 34 canonical mjai tile symbols, in source order. -/
def MJAI_TILES : List String :=
  ["1m", "2m", "3m", "4m", "5m", "6m", "7m", "8m", "9m",
   "1p", "2p", "3p", "4p", "5p", "6p", "7p", "8p", "9p",
   "1s", "2s", "3s", "4s", "5s", "6s", "7s", "8s", "9s",
   "E", "S", "W", "N", "P", "F", "C"]

/-- Source lookup `WIND_TO_TILE.get(w, "E")`: the 4-entry wind lookup with default `"E"`. -/
def WIND_TO_TILE (w : Int) : String :=
  if w = 0 then "E"
  else if w = 1 then "S"
  else if w = 2 then "W"
  else if w = 3 then "N"
  else "E"

/-- Source function `tile_id_to_mjai(tile_id)`: raises (`invalidTileId`) on a negative id,
otherwise indexes `MJAI_TILES` at `tile_id // 4`, raising (`invalidTileId`,
from the `IndexError` branch) when the quotient is out of range.  For a
non-negative `tile_id` Python's `//` agrees with `Int.toNat` followed by
`Nat` division. -/
def tile_id_to_mjai (tile_id : Int) : Except Err String :=
  if tile_id < 0 then .error .invalidTileId
  else
    match MJAI_TILES[tile_id.toNat / 4]? with
    | some s => .ok s
    | none => .error .invalidTileId

/-- An action entry of `valid_actions`: the parallel `tiles` / `who` lists.
`none` models an absent key (the code reads both through
`payload.get(key, [])` except for `action["tiles"][0]` in `discard_event`,
which subscripts directly). -/
structure Action where
  tiles : Option (List Int)
  who : Option (List Int)
deriving DecidableEq, Repr

/-- Source function `tiles_from_action(payload)`: zip the `tiles` and `who` lists (Python
`zip` truncates to the shorter list) and keep the pairs whose tile id is
non-negative. -/
def tiles_from_action (a : Action) : List (Int × Int) :=
  ((a.tiles.getD []).zip (a.who.getD [])).filter (fun p => 0 ≤ p.1)

/-- Per-seat record `state[str(idx)]`: the `points` field is read by direct
subscription, `PointsReward` through `.get(…, 0)`. -/
structure SeatRecord where
  points : Int
  pointsReward : Option Int
deriving DecidableEq, Repr

/-- The snapshot dictionary, restricted to the keys the converter reads.
`Option` marks keys the code reads with a `.get` default (or subscripts,
for `valid_actions` / `action_idx`, where absence is a `KeyError`).  The four
per-seat records `state["0"]`…`state["3"]` are modelled total because every
claim (and the spec's data model) has them present. -/
structure GameState where
  round_wind : Option Int
  dora_indicators : Option (List Int)
  num_honba : Option Int
  num_riichi : Option Int
  kyoku : Option Int
  seats : Fin 4 → SeatRecord
  oya : Option Int
  player_wind : Option Int
  hand_tiles : Option (List Int)
  valid_actions : Option (List Action)
  action_idx : Option Int

/-- Python list read `l[i]`: negative indices wrap once from the right,
anything still out of range is an `IndexError`. -/
def pyGet {α : Type} (l : List α) (i : Int) : Except Err α :=
  let j := if i < 0 then i + l.length else i
  if j < 0 then .error .indexError
  else
    match l[j.toNat]? with
    | some x => .ok x
    | none => .error .indexError

/-- Python list write `l[i] = x`, same index semantics as `pyGet`. -/
def pySet {α : Type} (l : List α) (i : Int) (x : α) : Except Err (List α) :=
  let j := if i < 0 then i + l.length else i
  if j < 0 then .error .indexError
  else if j.toNat < l.length then .ok (l.set j.toNat x)
  else .error .indexError

/-- Source expression `state["valid_actions"][state["action_idx"]]` as every action builder
performs it: `KeyError` when either key is absent, Python list indexing for
the subscript. -/
def lookupAction (st : GameState) : Except Err Action :=
  match st.valid_actions, st.action_idx with
  | some va, some idx => pyGet va idx
  | _, _ => .error .keyError

/-- Source expression `int(state.get("player_wind", 0))`: the acting seat as every builder
computes it. -/
def actorOf (st : GameState) : Int :=
  st.player_wind.getD 0

/-- The mjai event records emitted by the converter, one constructor per
`"type"` discriminant. -/
inductive Event where
  | start_game (names : List String)
  | start_kyoku (bakaze : String) (dora_marker : String) (kyoku : Int)
      (honba : Int) (kyotaku : Int) (oya : Int) (scores : List Int)
      (tehais : List (List String))
  | tsumo (actor : Int) (pai : String)
  | dahai (actor : Int) (pai : String) (tsumogiri : Bool)
  | chi (actor : Int) (target : Int) (pai : String) (consumed : List String)
  | pon (actor : Int) (target : Int) (pai : String) (consumed : List String)
  | daiminkan (actor : Int) (target : Int) (pai : String) (consumed : List String)
  | kakan (actor : Int) (pai : String) (consumed : List String)
  | ankan (actor : Int) (consumed : List String)
  | reach (actor : Int)
  | ryukyoku (deltas : List Int)
  | end_kyoku
  | end_game
deriving DecidableEq, Repr

/-- Source function `start_game_event()`. -/
def start_game_event : Event :=
  .start_game ["Player0", "Player1", "Player2", "Player3"]

/-- Source expression `state.get("dora_indicators") or [0]`: an absent key and an empty list
are both falsy, so both yield `[0]`. -/
def dora_markers (st : GameState) : List Int :=
  match st.dora_indicators with
  | none => [0]
  | some l => if l.isEmpty then [0] else l

/-- Source loop `concealed.extend("?" …)`: right-pad the first-13 hand slice to 13
entries with `"?"`. -/
def pad13 (l : List String) : List String :=
  l ++ List.replicate (13 - l.length) "?"

/-- Source function `start_kyoku_event(state)`.  Failure comes from decoding the dora
indicator, decoding a hand tile, or (`IndexError`) an actor index outside
Python's `[-4, 3]` assignment range for `tehais[actor]`. -/
def start_kyoku_event (st : GameState) : Except Err Event :=
  let bakaze := WIND_TO_TILE (st.round_wind.getD 0)
  match tile_id_to_mjai ((dora_markers st).headD 0) with
  | .error e => .error e
  | .ok dora_marker =>
    let honba := st.num_honba.getD 0
    let kyotaku := st.num_riichi.getD 0
    let kyoku := st.kyoku.getD 1
    let points := List.ofFn (fun i : Fin 4 => (st.seats i).points)
    let actor := actorOf st
    match (st.hand_tiles.getD []).mapM tile_id_to_mjai with
    | .error e => .error e
    | .ok hand_tiles =>
      let concealed := pad13 (hand_tiles.take 13)
      match pySet (List.replicate 4 (List.replicate 13 "?")) actor (concealed.take 13) with
      | .error e => .error e
      | .ok tehais =>
        .ok (.start_kyoku bakaze dora_marker (max 1 (min 4 kyoku)) honba kyotaku
          (st.oya.getD 0) points tehais)

/-- Source function `tsumo_event(state)`: `none` (Python `None`) when the hand holds at most
13 tiles, otherwise a `tsumo` event whose `pai` decodes the last hand tile
(`tiles[-1]`, well-defined because the list is non-empty here). -/
def tsumo_event (st : GameState) : Except Err (Option Event) :=
  let tiles := st.hand_tiles.getD []
  if tiles.length ≤ 13 then .ok none
  else
    match tile_id_to_mjai (tiles.getLastD 0) with
    | .error e => .error e
    | .ok pai => .ok (some (.tsumo (actorOf st) pai))

/-- The loop body of `_split_action_tiles`: walk the filtered pairs carrying
the mutable `consumed` / `pai` / `target` of the Python function. -/
def split_loop (pairs : List (Int × Int)) (actor : Int)
    (consumed : List String) (pai : Option String) (target : Option Int) :
    Except Err (List String × Option String × Option Int) :=
  match pairs with
  | [] => .ok (consumed, pai, target)
  | (tid, owner) :: rest =>
    match tile_id_to_mjai tid with
    | .error e => .error e
    | .ok tile =>
      if owner = actor then split_loop rest actor (consumed ++ [tile]) pai target
      else split_loop rest actor consumed (some tile) (some owner)

/-- Source function `_split_action_tiles(action, actor)`.  The Python return value
`[pai] if pai else []` tests string truthiness, so an empty string would
collapse to `[]`; that is modelled exactly. -/
def split_action_tiles (a : Action) (actor : Int) :
    Except Err (List String × List String × Option Int) :=
  match split_loop (tiles_from_action a) actor [] none none with
  | .error e => .error e
  | .ok (consumed, pai, target) =>
    .ok (consumed,
      (match pai with
       | some t => if t.isEmpty then [] else [t]
       | none => []),
      target)

/-- Source function `chi_event(state)`. -/
def chi_event (st : GameState) : Except Err Event :=
  let actor := actorOf st
  match lookupAction st with
  | .error e => .error e
  | .ok action =>
    match split_action_tiles action actor with
    | .error e => .error e
    | .ok (consumed, pai_list, target) =>
      match target, pai_list with
      | some t, p :: _ => .ok (.chi actor t p (consumed.take 2))
      | _, _ => .error .malformedAction

/-- Source function `pon_event(state)`. -/
def pon_event (st : GameState) : Except Err Event :=
  let actor := actorOf st
  match lookupAction st with
  | .error e => .error e
  | .ok action =>
    match split_action_tiles action actor with
    | .error e => .error e
    | .ok (consumed, pai_list, target) =>
      match target, pai_list with
      | some t, p :: _ => .ok (.pon actor t p (consumed.take 2))
      | _, _ => .error .malformedAction

/-- Source function `daiminkan_event(state)`. -/
def daiminkan_event (st : GameState) : Except Err Event :=
  let actor := actorOf st
  match lookupAction st with
  | .error e => .error e
  | .ok action =>
    match split_action_tiles action actor with
    | .error e => .error e
    | .ok (consumed, pai_list, target) =>
      match target, pai_list with
      | some t, p :: _ => .ok (.daiminkan actor t p (consumed.take 3))
      | _, _ => .error .malformedAction

/-- The list comprehension shared by `kakan_event` and `ankan_event`: decode
the actor-owned tiles of the filtered pairs, in source order. -/
def actor_tiles (a : Action) (actor : Int) : Except Err (List String) :=
  ((tiles_from_action a).filter (fun p => p.2 = actor)).mapM
    (fun p => tile_id_to_mjai p.1)

/-- Source function `kakan_event(state)` (the ShouMinKan builder): needs at least 4
actor-owned tiles, emits `pai = tiles[0]` and `consumed = tiles[:3]`. -/
def kakan_event (st : GameState) : Except Err Event :=
  let actor := actorOf st
  match lookupAction st with
  | .error e => .error e
  | .ok action =>
    match actor_tiles action actor with
    | .error e => .error e
    | .ok tiles =>
      if tiles.length < 4 then .error .malformedAction
      else .ok (.kakan actor (tiles.headD "?") (tiles.take 3))

/-- Source function `ankan_event(state)`: needs at least 4 actor-owned tiles, emits
`consumed = tiles[:4]`. -/
def ankan_event (st : GameState) : Except Err Event :=
  let actor := actorOf st
  match lookupAction st with
  | .error e => .error e
  | .ok action =>
    match actor_tiles action actor with
    | .error e => .error e
    | .ok tiles =>
      if tiles.length < 4 then .error .malformedAction
      else .ok (.ankan actor (tiles.take 4))

/-- Source expression `tsumogiri_tile == pai if tsumogiri_tile is not None else False`: the
self-draw-discard flag of `discard_event`. -/
def tsumogiri_flag (tsumogiri_tile : Option String) (pai : String) : Bool :=
  match tsumogiri_tile with
  | some t => t == pai
  | none => false

/-- Source function `discard_event(state, tsumogiri_tile)`: `action["tiles"]` is a direct
subscription (`keyError` when absent), `[0]` a Python index. -/
def discard_event (st : GameState) (tsumogiri_tile : Option String) :
    Except Err Event :=
  let actor := actorOf st
  match lookupAction st with
  | .error e => .error e
  | .ok action =>
    match action.tiles with
    | none => .error .keyError
    | some ts =>
      match pyGet ts 0 with
      | .error e => .error e
      | .ok tile_id =>
        match tile_id_to_mjai tile_id with
        | .error e => .error e
        | .ok pai => .ok (.dahai actor pai (tsumogiri_flag tsumogiri_tile pai))

/-- Source function `reach_events(state, tsumogiri_tile)`: the ready declaration followed by
the discard built from the same inputs. -/
def reach_events (st : GameState) (tsumogiri_tile : Option String) :
    Except Err (List Event) :=
  let actor := actorOf st
  match discard_event st tsumogiri_tile with
  | .error e => .error e
  | .ok d => .ok [.reach actor, d]

/-- Source function `skip_conversion(state)`: skips generate no events. -/
def skip_conversion (_st : GameState) : List Event := []

/-- Source function `ryukyoku_event(state)`: per-seat `PointsReward` deltas, default 0. -/
def ryukyoku_event (st : GameState) : Event :=
  .ryukyoku (List.ofFn (fun i : Fin 4 => (st.seats i).pointsReward.getD 0))

/-- Source function `tail_events()`. -/
def tail_events : List Event := [.end_kyoku, .end_game]

/-- The eight decision categories (the keys of `ACTION_BUILDERS`). -/
inductive Category where
  | Skip
  | Discard
  | Chi
  | Pon
  | DaiMinKan
  | ShouMinKan
  | AnKan
  | Riichi
deriving DecidableEq, Repr

/-- The `ACTION_BUILDERS` dispatch: each category's builder applied to the
snapshot and the optional self-draw tile symbol. -/
def run_builder (c : Category) (st : GameState) (tsumo : Option String) :
    Except Err (List Event) :=
  match c with
  | .Skip => .ok (skip_conversion st)
  | .Discard => (discard_event st tsumo).map (fun e => [e])
  | .Chi => (chi_event st).map (fun e => [e])
  | .Pon => (pon_event st).map (fun e => [e])
  | .DaiMinKan => (daiminkan_event st).map (fun e => [e])
  | .ShouMinKan => (kakan_event st).map (fun e => [e])
  | .AnKan => (ankan_event st).map (fun e => [e])
  | .Riichi => reach_events st tsumo

/-- Source expression `tsumo["pai"] if tsumo else None`: extract the drawn tile symbol from the
optional tsumo event. -/
def tsumo_pai : Option Event → Option String
  | some (.tsumo _ p) => some p
  | _ => none

/-- The per-row body of `convert_table`: build the full bracketed event
sequence for one decoded snapshot, in the source's evaluation order. -/
def convert_row (c : Category) (st : GameState) : Except Err (List Event) :=
  match tsumo_event st with
  | .error e => .error e
  | .ok tOpt =>
    match start_kyoku_event st with
    | .error e => .error e
    | .ok sk =>
      match run_builder c st (tsumo_pai tOpt) with
      | .error e => .error e
      | .ok mid =>
        .ok ([start_game_event, sk] ++ tOpt.toList ++ mid ++
          [ryukyoku_event st] ++ tail_events)

/-- Observable side effects of `convert_table`, in order: creating the
output directory, opening the gzip stream, writing one event line. -/
inductive Effect where
  | ensureDir
  | openOutput
  | writeLine (e : Event)
deriving DecidableEq, Repr

/-- The row loop of `convert_table`: write each row's events as lines,
stopping at (and reporting) the first failing row. -/
def write_rows (c : Category) : List GameState → List Effect × Option Err
  | [] => ([], none)
  | st :: rest =>
    match convert_row c st with
    | .error e => ([], some e)
    | .ok events =>
      let (effs, err) := write_rows c rest
      (events.map .writeLine ++ effs, err)

/-- Source function `convert_table(cursor, table, output_dir)` over already-decoded rows: an
empty table fails with `emptyCategory` before `ensure_directory` or
`gzip.open` runs; otherwise the directory is ensured, the stream opened, and
the rows written in order. -/
def convert_table (c : Category) (rows : List GameState) :
    List Effect × Option Err :=
  if rows.isEmpty then ([], some .emptyCategory)
  else
    let (effs, err) := write_rows c rows
    (Effect.ensureDir :: Effect.openOutput :: effs, err)

/-- Total variant of the codec used to state characterizations: the decoded
symbol when decoding succeeds, `"?"` otherwise. -/
def decodeD (n : Int) : String :=
  match tile_id_to_mjai n with
  | .ok s => s
  | .error _ => "?"

/-- Spec-side description of `_split_action_tiles` (from the spec's words):
`consumed` collects the decoded actor-owned pairs in source order; `claimed`
and `claimed_from_seat` come from the last externally-owned pair, empty /
`none` when there is none. -/
def split_spec (a : Action) (actor : Int) :
    List String × List String × Option Int :=
  let pairs := tiles_from_action a
  let ext := (pairs.filter (fun q => ¬ q.2 = actor)).getLast?
  ((pairs.filter (fun q => q.2 = actor)).map (fun q => decodeD q.1),
   ext.elim [] (fun q => [decodeD q.1]),
   ext.elim none (fun q => some q.2))

/-! ## Concrete fixtures for witnesses and counterexamples -/

/-- A neutral per-seat record. -/
def sampleSeat : SeatRecord := ⟨250, some 0⟩

/-- A 13-tile concealed hand (tile ids). -/
def hand13 : List Int := [0, 1, 2, 4, 5, 6, 8, 9, 10, 12, 13, 14, 16]

/-- C1: a ShouMinKan action whose four actor-owned tiles decode to four
distinct symbols `"1m" "2m" "3m" "4m"`. -/
def actC1 : Action := ⟨some [0, 4, 8, 12], some [0, 0, 0, 0]⟩

/-- C1: a ShouMinKan snapshot carrying `actC1`. -/
def stC1 : GameState :=
  { round_wind := some 0, dora_indicators := some [0], num_honba := some 0,
    num_riichi := some 0, kyoku := some 1, seats := fun _ => sampleSeat,
    oya := some 0, player_wind := some 0, hand_tiles := some hand13,
    valid_actions := some [actC1], action_idx := some 0 }

/-- C3: the claim's concrete action entry. -/
def actC3 : Action := ⟨some [5, 9, -1, 13], some [0, 1, 0, 0]⟩

/-- C4: a Skip snapshot with a 13-tile hand. -/
def stC4 : GameState :=
  { round_wind := some 0, dora_indicators := some [0], num_honba := some 0,
    num_riichi := some 0, kyoku := some 1, seats := fun _ => sampleSeat,
    oya := some 0, player_wind := some 0, hand_tiles := some hand13,
    valid_actions := none, action_idx := none }

/-- C5: a snapshot with a 14-tile hand ending in tile id 8 (`"3m"`). -/
def stC5 : GameState :=
  { round_wind := some 0, dora_indicators := some [0], num_honba := some 0,
    num_riichi := some 0, kyoku := some 1, seats := fun _ => sampleSeat,
    oya := some 0, player_wind := some 2, hand_tiles := some (hand13 ++ [8]),
    valid_actions := none, action_idx := none }

/-- C6: a Discard snapshot whose 14th hand tile equals the discarded tile. -/
def stC6 : GameState :=
  { round_wind := some 0, dora_indicators := some [0], num_honba := some 0,
    num_riichi := some 0, kyoku := some 1, seats := fun _ => sampleSeat,
    oya := some 0, player_wind := some 2, hand_tiles := some (hand13 ++ [8]),
    valid_actions := some [⟨some [8], some [2]⟩], action_idx := some 0 }

/-- C7: an action with only three actor-owned tiles. -/
def actC7kan3 : Action := ⟨some [0, 1, 2], some [0, 0, 0]⟩

/-- C7: an action with four actor-owned tiles. -/
def actC7kan4 : Action := ⟨some [0, 1, 2, 3], some [0, 0, 0, 0]⟩

/-- C7: an action whose tiles are all actor-owned (no external tile). -/
def actC7own : Action := ⟨some [0, 1], some [0, 0]⟩

/-- C7: an action holding one externally-owned tile. -/
def actC7ext : Action := ⟨some [0, 1, 2], some [0, 0, 1]⟩

/-- C7: a snapshot whose `valid_actions` carries the four C7 actions;
`action_idx` selects among them per witness instance. -/
def stC7 (idx : Int) : GameState :=
  { round_wind := some 0, dora_indicators := some [0], num_honba := some 0,
    num_riichi := some 0, kyoku := some 1, seats := fun _ => sampleSeat,
    oya := some 0, player_wind := some 0, hand_tiles := some hand13,
    valid_actions := some [actC7kan3, actC7kan4, actC7own, actC7ext],
    action_idx := some idx }

/-- C9: a snapshot exercising the defaults: out-of-range round wind, empty
dora list, kyoku above the clamp, a short hand. -/
def stC9 : GameState :=
  { round_wind := some 7, dora_indicators := some [], num_honba := some 2,
    num_riichi := some 1, kyoku := some 9,
    seats := fun i => ⟨25000 + i.val, some 0⟩,
    oya := some 3, player_wind := some 2, hand_tiles := some [0, 4, 8],
    valid_actions := none, action_idx := none }

/-! ## Basic facts about the tile codec -/

theorem MJAI_TILES_length : MJAI_TILES.length = 34 := rfl

theorem tile_id_to_mjai_ok (n : Int) (h0 : 0 ≤ n) (h1 : n.toNat / 4 < 34) :
    ∃ s, tile_id_to_mjai n = .ok s ∧ MJAI_TILES[n.toNat / 4]? = some s := by
  have hne : ¬ n < 0 := not_lt.mpr h0
  have hlt : n.toNat / 4 < MJAI_TILES.length := by
    rw [MJAI_TILES_length]; exact h1
  refine ⟨MJAI_TILES[n.toNat / 4], ?_, List.getElem?_eq_getElem hlt⟩
  simp [tile_id_to_mjai, hne, List.getElem?_eq_getElem hlt]

theorem tile_id_to_mjai_mem {n : Int} {s : String}
    (h : tile_id_to_mjai n = .ok s) : s ∈ MJAI_TILES := by
  unfold tile_id_to_mjai at h
  split at h
  · exact absurd h (by simp)
  · split at h
    · cases h
      next heq => exact List.getElem?_mem heq
    · exact absurd h (by simp)

theorem tile_id_to_mjai_congr (m n : Int) (hm : 0 ≤ m) (hn : 0 ≤ n)
    (h : m.toNat / 4 = n.toNat / 4) : tile_id_to_mjai m = tile_id_to_mjai n := by
  simp [tile_id_to_mjai, not_lt.mpr hm, not_lt.mpr hn, h]

/-- C2: for every integer `n` with `0 ≤ n ≤ 135`, decoding succeeds and
returns one of the 34 canonical symbols; decoding `4*k`, `4*k+1`, `4*k+2`
and `4*k+3` agree for every `k` in `[0, 33]`; and decoding fails with the
`InvalidTileId` error for every `n` with `n < 0` or `n // 4 ≥ 34`. -/
theorem tile_codec_spec :
    (∀ n : Int, 0 ≤ n → n ≤ 135 → ∃ s, tile_id_to_mjai n = .ok s ∧ s ∈ MJAI_TILES) ∧
    (∀ k : Int, 0 ≤ k → k ≤ 33 →
      tile_id_to_mjai (4 * k) = tile_id_to_mjai (4 * k + 1) ∧
      tile_id_to_mjai (4 * k + 1) = tile_id_to_mjai (4 * k + 2) ∧
      tile_id_to_mjai (4 * k + 2) = tile_id_to_mjai (4 * k + 3)) ∧
    (∀ n : Int, n < 0 ∨ 34 ≤ n.toNat / 4 →
      tile_id_to_mjai n = .error .invalidTileId) := by
  refine ⟨?_, ?_, ?_⟩
  · intro n h0 h1
    obtain ⟨s, hok, hget⟩ := tile_id_to_mjai_ok n h0 (by omega)
    exact ⟨s, hok, tile_id_to_mjai_mem hok⟩
  · intro k h0 h1
    refine ⟨?_, ?_, ?_⟩ <;>
      exact tile_id_to_mjai_congr _ _ (by omega) (by omega) (by omega)
  · intro n h
    rcases h with h | h
    · simp [tile_id_to_mjai, h]
    · by_cases hneg : n < 0
      · simp [tile_id_to_mjai, hneg]
      · have : MJAI_TILES.length ≤ n.toNat / 4 := by
          rw [MJAI_TILES_length]; exact h
        simp [tile_id_to_mjai, hneg, List.getElem?_eq_none this]

theorem tile_codec_spec_witness :
    (∃ s, tile_id_to_mjai 8 = .ok s ∧ s ∈ MJAI_TILES) ∧
    tile_id_to_mjai 4 = tile_id_to_mjai 5 ∧
    tile_id_to_mjai (-1) = .error .invalidTileId ∧
    tile_id_to_mjai 136 = .error .invalidTileId :=
  ⟨tile_codec_spec.1 8 (by decide) (by decide),
   (tile_codec_spec.2.1 1 (by decide) (by decide)).1,
   tile_codec_spec.2.2 (-1) (Or.inl (by decide)),
   tile_codec_spec.2.2 136 (Or.inr (by decide))⟩

/-! ## The tsumo builder -/

theorem tsumo_event_none_of_short {st : GameState}
    (h : (st.hand_tiles.getD []).length ≤ 13) : tsumo_event st = .ok none := by
  simp [tsumo_event, h]

theorem tsumo_event_some_inv {st : GameState} {e : Event}
    (h : tsumo_event st = .ok (some e)) :
    13 < (st.hand_tiles.getD []).length ∧
    ∃ pai, e = .tsumo (actorOf st) pai ∧
      tile_id_to_mjai ((st.hand_tiles.getD []).getLastD 0) = .ok pai := by
  simp only [tsumo_event] at h
  split at h
  · exact absurd h (by simp)
  · next hlen =>
    refine ⟨by omega, ?_⟩
    split at h
    · exact absurd h (by simp)
    · next pai hdec =>
      cases h
      exact ⟨pai, rfl, hdec⟩

theorem tsumo_event_some_of {st : GameState} {pai : String}
    (hlen : 13 < (st.hand_tiles.getD []).length)
    (hdec : tile_id_to_mjai ((st.hand_tiles.getD []).getLastD 0) = .ok pai) :
    tsumo_event st = .ok (some (.tsumo (actorOf st) pai)) := by
  rw [List.getLastD_eq_getLast?] at hdec
  simp [tsumo_event, Nat.not_le.mpr hlen, hdec]

theorem tsumo_event_none_inv {st : GameState}
    (h : tsumo_event st = .ok none) : (st.hand_tiles.getD []).length ≤ 13 := by
  by_contra hlen
  unfold tsumo_event at h
  rw [if_neg hlen] at h
  split at h
  · exact absurd h (by simp)
  · exact absurd h (by simp)

/-- C5: the tsumo builder returns the no-event sentinel exactly when the
hand holds at most 13 tiles; any event it returns is a `tsumo` whose `actor`
is the seat-wind field and whose `pai` decodes the last hand tile, and such
an event is returned whenever the hand exceeds 13 tiles and the last tile
decodes. -/
theorem tsumo_event_spec (st : GameState) :
    ((st.hand_tiles.getD []).length ≤ 13 → tsumo_event st = .ok none) ∧
    (tsumo_event st = .ok none → (st.hand_tiles.getD []).length ≤ 13) ∧
    (∀ e, tsumo_event st = .ok (some e) →
      13 < (st.hand_tiles.getD []).length ∧
      ∃ pai, e = .tsumo (actorOf st) pai ∧
        tile_id_to_mjai ((st.hand_tiles.getD []).getLastD 0) = .ok pai) ∧
    (13 < (st.hand_tiles.getD []).length →
      ∀ pai, tile_id_to_mjai ((st.hand_tiles.getD []).getLastD 0) = .ok pai →
        tsumo_event st = .ok (some (.tsumo (actorOf st) pai))) :=
  ⟨tsumo_event_none_of_short,
   tsumo_event_none_inv,
   fun _ h => tsumo_event_some_inv h,
   fun hlen _ hdec => tsumo_event_some_of hlen hdec⟩

theorem tsumo_event_spec_witness :
    tsumo_event stC4 = .ok none ∧
    (13 < (stC5.hand_tiles.getD []).length ∧
      tile_id_to_mjai ((stC5.hand_tiles.getD []).getLastD 0) = .ok "3m" ∧
      tsumo_event stC5 = .ok (some (.tsumo (actorOf stC5) "3m"))) :=
  ⟨(tsumo_event_spec stC4).1 (by decide),
   ⟨by decide, rfl, (tsumo_event_spec stC5).2.2.2 (by decide) "3m" rfl⟩⟩

/-! ## The action-tile extractor -/

theorem mjai_not_empty : ∀ s ∈ MJAI_TILES, s.isEmpty = false := by decide

theorem decodeD_eq {n : Int} {s : String} (h : tile_id_to_mjai n = .ok s) :
    decodeD n = s := by
  simp [decodeD, h]

theorem exists_ok_of_isOk {n : Int} (h : (tile_id_to_mjai n).isOk = true) :
    ∃ s, tile_id_to_mjai n = .ok s := by
  cases hh : tile_id_to_mjai n with
  | ok s => exact ⟨s, rfl⟩
  | error e => rw [hh] at h; simp [Except.isOk, Except.toBool] at h

theorem decodeD_not_empty {n : Int} (h : (tile_id_to_mjai n).isOk = true) :
    (decodeD n).isEmpty = false := by
  obtain ⟨s, hs⟩ := exists_ok_of_isOk h
  rw [decodeD_eq hs]
  exact mjai_not_empty s (tile_id_to_mjai_mem hs)

theorem split_loop_eq (actor : Int) (pairs : List (Int × Int)) :
    ∀ (c : List String) (p : Option String) (t : Option Int),
      (∀ q ∈ pairs, (tile_id_to_mjai q.1).isOk = true) →
      split_loop pairs actor c p t = .ok
        (c ++ (pairs.filter (fun q => q.2 = actor)).map (fun q => decodeD q.1),
         ((pairs.filter (fun q => ¬ q.2 = actor)).getLast?).elim p
           (fun q => some (decodeD q.1)),
         ((pairs.filter (fun q => ¬ q.2 = actor)).getLast?).elim t
           (fun q => some q.2)) := by
  induction pairs with
  | nil => intro c p t _; simp [split_loop]
  | cons q rest ih =>
    intro c p t hdec
    obtain ⟨tid, owner⟩ := q
    obtain ⟨s, hs⟩ := exists_ok_of_isOk (hdec (tid, owner) (by simp))
    have hrest : ∀ r ∈ rest, (tile_id_to_mjai r.1).isOk = true :=
      fun r hr => hdec r (by simp [hr])
    by_cases ho : owner = actor
    · have hstep : split_loop ((tid, owner) :: rest) actor c p t =
          split_loop rest actor (c ++ [s]) p t := by
        simp [split_loop, hs, ho]
      rw [hstep, ih _ _ _ hrest]
      simp [List.filter_cons, ho, decodeD_eq hs]
    · have hstep : split_loop ((tid, owner) :: rest) actor c p t =
          split_loop rest actor c (some s) (some owner) := by
        simp [split_loop, hs, ho]
      rw [hstep, ih _ _ _ hrest]
      have hcons : (((tid, owner) :: rest).filter (fun q => ¬ q.2 = actor)) =
          (tid, owner) :: rest.filter (fun q => ¬ q.2 = actor) := by
        simp [List.filter_cons, ho]
      rw [hcons, List.getLast?_cons]
      cases hlast : (rest.filter (fun q => ¬ q.2 = actor)).getLast? with
      | none => simp [hlast, List.filter_cons, ho, decodeD_eq hs]
      | some r => simp [hlast, List.filter_cons, ho]

theorem split_action_tiles_eq (a : Action) (actor : Int)
    (hdec : ∀ q ∈ tiles_from_action a, (tile_id_to_mjai q.1).isOk = true) :
    split_action_tiles a actor = .ok (split_spec a actor) := by
  have hloop := split_loop_eq actor (tiles_from_action a) [] none none hdec
  cases hlast : ((tiles_from_action a).filter (fun q => ¬ q.2 = actor)).getLast? with
  | none =>
    rw [hlast] at hloop
    simp only [Option.elim] at hloop
    simp only [split_action_tiles, hloop, split_spec, hlast, Option.elim,
      List.nil_append]
  | some q =>
    have hq : q ∈ tiles_from_action a :=
      List.mem_of_mem_filter (List.mem_of_mem_getLast? hlast)
    have hne : (decodeD q.1).isEmpty = false := decodeD_not_empty (hdec q hq)
    rw [hlast] at hloop
    simp only [Option.elim] at hloop
    simp only [split_action_tiles, hloop, split_spec, hlast, Option.elim,
      List.nil_append, hne, Bool.false_eq_true, if_false]

/-- C3: `_split_action_tiles` walks the parallel pairs skipping negative
tile ids, appends decoded actor-owned tiles to `consumed` in source order,
and keeps the last externally-owned pair as `claimed` / `claimed_from_seat`
(as described by `split_spec`); on the claim's concrete example it returns
`consumed = [decode 5, decode 13]`, `claimed = [decode 9]`, seat 1. -/
theorem split_action_tiles_spec :
    (∀ (a : Action) (actor : Int),
      (∀ q ∈ tiles_from_action a, (tile_id_to_mjai q.1).isOk = true) →
      split_action_tiles a actor = .ok (split_spec a actor)) ∧
    split_action_tiles ⟨some [5, 9, -1, 13], some [0, 1, 0, 0]⟩ 0 =
      .ok ([decodeD 5, decodeD 13], [decodeD 9], some 1) :=
  ⟨split_action_tiles_eq, by decide⟩

theorem split_action_tiles_spec_witness :
    split_action_tiles actC3 0 = .ok (split_spec actC3 0) :=
  split_action_tiles_spec.1 actC3 0 (by decide)

/-! ## Builder minimum-tile enforcement -/

theorem mapM_decode_eq (l : List (Int × Int))
    (h : ∀ q ∈ l, (tile_id_to_mjai q.1).isOk = true) :
    l.mapM (fun q => tile_id_to_mjai q.1) = .ok (l.map (fun q => decodeD q.1)) := by
  induction l with
  | nil => rfl
  | cons q rest ih =>
    obtain ⟨s, hs⟩ := exists_ok_of_isOk (h q (by simp))
    rw [List.mapM_cons, hs, ih (fun r hr => h r (by simp [hr]))]
    simp only [List.map_cons, decodeD_eq hs]
    rfl

theorem actor_tiles_eq (a : Action) (actor : Int)
    (hdec : ∀ q ∈ tiles_from_action a, (tile_id_to_mjai q.1).isOk = true) :
    actor_tiles a actor = .ok
      (((tiles_from_action a).filter (fun q => q.2 = actor)).map
        (fun q => decodeD q.1)) := by
  unfold actor_tiles
  exact mapM_decode_eq _ (fun q hq => hdec q (List.mem_of_mem_filter hq))

theorem kakan_event_cases {st : GameState} {a : Action}
    (hlookup : lookupAction st = .ok a)
    (hdec : ∀ q ∈ tiles_from_action a, (tile_id_to_mjai q.1).isOk = true) :
    (((tiles_from_action a).filter (fun q => q.2 = actorOf st)).length < 4 →
      kakan_event st = .error .malformedAction) ∧
    (4 ≤ ((tiles_from_action a).filter (fun q => q.2 = actorOf st)).length →
      ∃ e, kakan_event st = .ok e) := by
  have hat := actor_tiles_eq a (actorOf st) hdec
  constructor
  · intro hlt
    simp only [kakan_event, hlookup, hat, List.length_map]
    rw [if_pos hlt]
  · intro hge
    simp only [kakan_event, hlookup, hat, List.length_map]
    rw [if_neg (by omega)]
    exact ⟨_, rfl⟩

theorem ankan_event_cases {st : GameState} {a : Action}
    (hlookup : lookupAction st = .ok a)
    (hdec : ∀ q ∈ tiles_from_action a, (tile_id_to_mjai q.1).isOk = true) :
    (((tiles_from_action a).filter (fun q => q.2 = actorOf st)).length < 4 →
      ankan_event st = .error .malformedAction) ∧
    (4 ≤ ((tiles_from_action a).filter (fun q => q.2 = actorOf st)).length →
      ∃ e, ankan_event st = .ok e) := by
  have hat := actor_tiles_eq a (actorOf st) hdec
  constructor
  · intro hlt
    simp only [ankan_event, hlookup, hat, List.length_map]
    rw [if_pos hlt]
  · intro hge
    simp only [ankan_event, hlookup, hat, List.length_map]
    rw [if_neg (by omega)]
    exact ⟨_, rfl⟩

theorem ext_filter_eq_nil {a : Action} {actor : Int}
    (hall : ∀ q ∈ tiles_from_action a, q.2 = actor) :
    (tiles_from_action a).filter (fun q => ¬ q.2 = actor) = [] := by
  rw [List.filter_eq_nil_iff]
  intro q hq
  simp [hall q hq]

theorem ext_filter_last_some {a : Action} {actor : Int}
    (hex : ∃ q ∈ tiles_from_action a, ¬ q.2 = actor) :
    ∃ r, ((tiles_from_action a).filter (fun q => ¬ q.2 = actor)).getLast? = some r := by
  obtain ⟨q, hq, hne⟩ := hex
  have hmem : q ∈ (tiles_from_action a).filter (fun q => ¬ q.2 = actor) :=
    List.mem_filter.mpr ⟨hq, by simp [hne]⟩
  have hnil : (tiles_from_action a).filter (fun q => ¬ q.2 = actor) ≠ [] :=
    List.ne_nil_of_mem hmem
  cases hlast : ((tiles_from_action a).filter (fun q => ¬ q.2 = actor)).getLast? with
  | none => exact absurd (List.getLast?_eq_none_iff.mp hlast) hnil
  | some r => exact ⟨r, rfl⟩

theorem chi_event_cases {st : GameState} {a : Action}
    (hlookup : lookupAction st = .ok a)
    (hdec : ∀ q ∈ tiles_from_action a, (tile_id_to_mjai q.1).isOk = true) :
    ((∀ q ∈ tiles_from_action a, q.2 = actorOf st) →
      chi_event st = .error .malformedAction) ∧
    ((∃ q ∈ tiles_from_action a, ¬ q.2 = actorOf st) →
      ∃ e, chi_event st = .ok e) := by
  have hsplit := split_action_tiles_eq a (actorOf st) hdec
  constructor
  · intro hall
    simp only [chi_event, hlookup, hsplit, split_spec,
      ext_filter_eq_nil hall, List.getLast?_nil, Option.elim]
  · intro hex
    obtain ⟨r, hr⟩ := ext_filter_last_some hex
    simp only [chi_event, hlookup, hsplit, split_spec, hr, Option.elim]
    exact ⟨_, rfl⟩

theorem pon_event_cases {st : GameState} {a : Action}
    (hlookup : lookupAction st = .ok a)
    (hdec : ∀ q ∈ tiles_from_action a, (tile_id_to_mjai q.1).isOk = true) :
    ((∀ q ∈ tiles_from_action a, q.2 = actorOf st) →
      pon_event st = .error .malformedAction) ∧
    ((∃ q ∈ tiles_from_action a, ¬ q.2 = actorOf st) →
      ∃ e, pon_event st = .ok e) := by
  have hsplit := split_action_tiles_eq a (actorOf st) hdec
  constructor
  · intro hall
    simp only [pon_event, hlookup, hsplit, split_spec,
      ext_filter_eq_nil hall, List.getLast?_nil, Option.elim]
  · intro hex
    obtain ⟨r, hr⟩ := ext_filter_last_some hex
    simp only [pon_event, hlookup, hsplit, split_spec, hr, Option.elim]
    exact ⟨_, rfl⟩

theorem daiminkan_event_cases {st : GameState} {a : Action}
    (hlookup : lookupAction st = .ok a)
    (hdec : ∀ q ∈ tiles_from_action a, (tile_id_to_mjai q.1).isOk = true) :
    ((∀ q ∈ tiles_from_action a, q.2 = actorOf st) →
      daiminkan_event st = .error .malformedAction) ∧
    ((∃ q ∈ tiles_from_action a, ¬ q.2 = actorOf st) →
      ∃ e, daiminkan_event st = .ok e) := by
  have hsplit := split_action_tiles_eq a (actorOf st) hdec
  constructor
  · intro hall
    simp only [daiminkan_event, hlookup, hsplit, split_spec,
      ext_filter_eq_nil hall, List.getLast?_nil, Option.elim]
  · intro hex
    obtain ⟨r, hr⟩ := ext_filter_last_some hex
    simp only [daiminkan_event, hlookup, hsplit, split_spec, hr, Option.elim]
    exact ⟨_, rfl⟩

/-- C7: with a resolvable action entry whose (non-negative) tiles all
decode, the ShouMinKan and AnKan builders fail with the `MalformedAction`
error exactly when fewer than 4 actor-owned tiles are present, and the Chi,
Pon and DaiMinKan builders fail with it exactly when no externally-owned
tile is present; under the respective precondition each builder succeeds. -/
theorem builders_malformed_spec :
    ∀ (st : GameState) (a : Action),
      lookupAction st = .ok a →
      (∀ q ∈ tiles_from_action a, (tile_id_to_mjai q.1).isOk = true) →
      ((((tiles_from_action a).filter (fun q => q.2 = actorOf st)).length < 4 →
          kakan_event st = .error .malformedAction ∧
          ankan_event st = .error .malformedAction) ∧
       (4 ≤ ((tiles_from_action a).filter (fun q => q.2 = actorOf st)).length →
          (∃ e, kakan_event st = .ok e) ∧ ∃ e, ankan_event st = .ok e) ∧
       ((∀ q ∈ tiles_from_action a, q.2 = actorOf st) →
          chi_event st = .error .malformedAction ∧
          pon_event st = .error .malformedAction ∧
          daiminkan_event st = .error .malformedAction) ∧
       ((∃ q ∈ tiles_from_action a, ¬ q.2 = actorOf st) →
          (∃ e, chi_event st = .ok e) ∧ (∃ e, pon_event st = .ok e) ∧
          ∃ e, daiminkan_event st = .ok e)) := by
  intro st a hlookup hdec
  refine ⟨?_, ?_, ?_, ?_⟩
  · intro hlt
    exact ⟨(kakan_event_cases hlookup hdec).1 hlt,
      (ankan_event_cases hlookup hdec).1 hlt⟩
  · intro hge
    exact ⟨(kakan_event_cases hlookup hdec).2 hge,
      (ankan_event_cases hlookup hdec).2 hge⟩
  · intro hall
    exact ⟨(chi_event_cases hlookup hdec).1 hall,
      (pon_event_cases hlookup hdec).1 hall,
      (daiminkan_event_cases hlookup hdec).1 hall⟩
  · intro hex
    exact ⟨(chi_event_cases hlookup hdec).2 hex,
      (pon_event_cases hlookup hdec).2 hex,
      (daiminkan_event_cases hlookup hdec).2 hex⟩

theorem builders_malformed_spec_witness :
    (kakan_event (stC7 0) = .error .malformedAction ∧
      ankan_event (stC7 0) = .error .malformedAction) ∧
    ((∃ e, kakan_event (stC7 1) = .ok e) ∧ ∃ e, ankan_event (stC7 1) = .ok e) ∧
    (chi_event (stC7 2) = .error .malformedAction ∧
      pon_event (stC7 2) = .error .malformedAction ∧
      daiminkan_event (stC7 2) = .error .malformedAction) ∧
    ((∃ e, chi_event (stC7 3) = .ok e) ∧ (∃ e, pon_event (stC7 3) = .ok e) ∧
      ∃ e, daiminkan_event (stC7 3) = .ok e) :=
  ⟨(builders_malformed_spec (stC7 0) actC7kan3 rfl (by decide)).1 (by decide),
   (builders_malformed_spec (stC7 1) actC7kan4 rfl (by decide)).2.1 (by decide),
   (builders_malformed_spec (stC7 2) actC7own rfl (by decide)).2.2.1 (by decide),
   (builders_malformed_spec (stC7 3) actC7ext rfl (by decide)).2.2.2 (by decide)⟩

/-! ## The ShouMinKan (kakan) builder's field contents -/

/-- C1 counterexample: at `stC1` the four actor-owned tiles of the
ShouMinKan action decode to `"1m" "2m" "3m" "4m"`, yet the built kakan
event's `pai` is `"1m"` — the first actor-owned tile, not the fourth
(`"4m"`) as the claim states. -/
theorem kakan_pai_counterexample :
    lookupAction stC1 = .ok actC1 ∧
    actor_tiles actC1 (actorOf stC1) = .ok ["1m", "2m", "3m", "4m"] ∧
    kakan_event stC1 = .ok (.kakan 0 "1m" ["1m", "2m", "3m"]) ∧
    (("1m" : String) == "4m") = false :=
  ⟨rfl, rfl, rfl, rfl⟩

/-- C1 (amended): for every ShouMinKan snapshot whose action entry holds at
least 4 actor-owned tiles (after skipping negative ids), the kakan event's
`pai` is the decoded *first* actor-owned tile and `consumed` is the decoded
first 3 actor-owned tiles. -/
theorem kakan_event_fields :
    ∀ (st : GameState) (a : Action) (ts : List String),
      lookupAction st = .ok a →
      actor_tiles a (actorOf st) = .ok ts →
      4 ≤ ts.length →
      kakan_event st = .ok (.kakan (actorOf st) (ts.headD "?") (ts.take 3)) := by
  intro st a ts hlookup hts hlen
  simp only [kakan_event, hlookup, hts]
  rw [if_neg (by omega)]

theorem kakan_event_fields_witness :
    lookupAction stC1 = .ok actC1 ∧
    actor_tiles actC1 (actorOf stC1) = .ok ["1m", "2m", "3m", "4m"] ∧
    4 ≤ (["1m", "2m", "3m", "4m"] : List String).length ∧
    kakan_event stC1 = .ok (.kakan (actorOf stC1)
      ((["1m", "2m", "3m", "4m"] : List String).headD "?")
      ((["1m", "2m", "3m", "4m"] : List String).take 3)) :=
  ⟨rfl, rfl, by decide, kakan_event_fields stC1 actC1 _ rfl rfl (by decide)⟩

/-! ## The per-row event-sequence shape -/

theorem except_map_singleton_inv {f : Except Err Event} {mid : List Event}
    (h : f.map (fun e => [e]) = .ok mid) : ∃ e, f = .ok e ∧ mid = [e] := by
  cases f with
  | error e => simp [Except.map] at h
  | ok e => exact ⟨e, rfl, by simpa [Except.map] using h.symm⟩

theorem reach_events_inv {st : GameState} {ts : Option String} {l : List Event}
    (h : reach_events st ts = .ok l) :
    ∃ d, discard_event st ts = .ok d ∧ l = [.reach (actorOf st), d] := by
  simp only [reach_events] at h
  cases hd : discard_event st ts with
  | error e => rw [hd] at h; exact absurd h (by simp)
  | ok d => rw [hd] at h; cases h; exact ⟨d, rfl, rfl⟩

theorem run_builder_length {c : Category} {st : GameState} {ts : Option String}
    {mid : List Event} (h : run_builder c st ts = .ok mid) : mid.length ≤ 2 := by
  cases c with
  | Skip => simp only [run_builder, skip_conversion] at h; cases h; simp
  | Discard =>
    simp only [run_builder] at h
    obtain ⟨e, _, hm⟩ := except_map_singleton_inv h; simp [hm]
  | Chi =>
    simp only [run_builder] at h
    obtain ⟨e, _, hm⟩ := except_map_singleton_inv h; simp [hm]
  | Pon =>
    simp only [run_builder] at h
    obtain ⟨e, _, hm⟩ := except_map_singleton_inv h; simp [hm]
  | DaiMinKan =>
    simp only [run_builder] at h
    obtain ⟨e, _, hm⟩ := except_map_singleton_inv h; simp [hm]
  | ShouMinKan =>
    simp only [run_builder] at h
    obtain ⟨e, _, hm⟩ := except_map_singleton_inv h; simp [hm]
  | AnKan =>
    simp only [run_builder] at h
    obtain ⟨e, _, hm⟩ := except_map_singleton_inv h; simp [hm]
  | Riichi =>
    simp only [run_builder] at h
    obtain ⟨d, _, hm⟩ := reach_events_inv h; simp [hm]

theorem start_kyoku_event_shape {st : GameState} {e : Event}
    (h : start_kyoku_event st = .ok e) :
    ∃ b d ky hb kt o sc te, e = .start_kyoku b d ky hb kt o sc te := by
  simp only [start_kyoku_event] at h
  split at h
  · exact absurd h (by simp)
  · split at h
    · exact absurd h (by simp)
    · split at h
      · exact absurd h (by simp)
      · cases h; exact ⟨_, _, _, _, _, _, _, _, rfl⟩

/-- C4: every successful row conversion yields exactly `start_game`,
`start_kyoku`, an optional `tsumo`, the category's 0–2 events, `ryukyoku`,
`end_kyoku`, `end_game`, in that order and with nothing else. -/
theorem convert_row_shape :
    ∀ (c : Category) (st : GameState) (evs : List Event),
      convert_row c st = .ok evs →
      ∃ sk t mid,
        evs = [start_game_event, sk] ++ t ++ mid ++
          [ryukyoku_event st, Event.end_kyoku, Event.end_game] ∧
        (∃ b d ky hb kt o sc te, sk = .start_kyoku b d ky hb kt o sc te) ∧
        (t = [] ∨ ∃ a p, t = [.tsumo a p]) ∧
        mid.length ≤ 2 := by
  intro c st evs h
  simp only [convert_row] at h
  split at h
  · exact absurd h (by simp)
  next tOpt ht =>
    split at h
    · exact absurd h (by simp)
    next sk hsk =>
      split at h
      · exact absurd h (by simp)
      next mid hb =>
        cases h
        refine ⟨sk, tOpt.toList, mid, by simp [tail_events],
          start_kyoku_event_shape hsk, ?_, run_builder_length hb⟩
        cases tOpt with
        | none => exact Or.inl rfl
        | some e =>
          obtain ⟨_, pai, hpai, _⟩ := tsumo_event_some_inv ht
          exact Or.inr ⟨actorOf st, pai, by simp [hpai]⟩

theorem convert_row_shape_witness :
    convert_row .Skip stC4 = .ok
      [start_game_event,
       .start_kyoku "E" "1m" 1 0 0 0 [250, 250, 250, 250]
         [["1m", "1m", "1m", "2m", "2m", "2m", "3m", "3m", "3m",
           "4m", "4m", "4m", "5m"],
          List.replicate 13 "?", List.replicate 13 "?", List.replicate 13 "?"],
       ryukyoku_event stC4, .end_kyoku, .end_game] ∧
    ∃ sk t mid,
      ([start_game_event,
        .start_kyoku "E" "1m" 1 0 0 0 [250, 250, 250, 250]
          [["1m", "1m", "1m", "2m", "2m", "2m", "3m", "3m", "3m",
            "4m", "4m", "4m", "5m"],
           List.replicate 13 "?", List.replicate 13 "?", List.replicate 13 "?"],
        ryukyoku_event stC4, .end_kyoku, .end_game] : List Event) =
        [start_game_event, sk] ++ t ++ mid ++
          [ryukyoku_event stC4, Event.end_kyoku, Event.end_game] ∧
      (∃ b d ky hb kt o sc te, sk = .start_kyoku b d ky hb kt o sc te) ∧
      (t = [] ∨ ∃ a p, t = [.tsumo a p]) ∧
      mid.length ≤ 2 :=
  ⟨rfl, convert_row_shape .Skip stC4 _ rfl⟩

/-! ## The tsumogiri flag of Discard rows -/

theorem discard_event_inv {st : GameState} {ts0 : Option String} {e : Event}
    (h : discard_event st ts0 = .ok e) :
    ∃ a ts t0 pai, lookupAction st = .ok a ∧ a.tiles = some ts ∧
      pyGet ts 0 = .ok t0 ∧ tile_id_to_mjai t0 = .ok pai ∧
      e = .dahai (actorOf st) pai (tsumogiri_flag ts0 pai) := by
  simp only [discard_event] at h
  split at h
  · exact absurd h (by simp)
  next a ha =>
    split at h
    · exact absurd h (by simp)
    next ts hts =>
      split at h
      · exact absurd h (by simp)
      next t0 ht0 =>
        split at h
        · exact absurd h (by simp)
        next pai hpai =>
          cases h
          exact ⟨a, ts, t0, pai, ha, hts, ht0, hpai, rfl⟩

/-- C6: in a successfully converted Discard row, the `dahai` event's
`tsumogiri` flag is true exactly when a self-draw event was produced for the
row and the discarded tile symbol equals the self-draw tile symbol; it is
false whenever no self-draw was produced, and a self-draw is produced
exactly when the hand exceeds 13 tiles. -/
theorem discard_tsumogiri_spec :
    ∀ (st : GameState) (evs : List Event),
      convert_row .Discard st = .ok evs →
      ∃ sk tOpt pai tsg,
        tsumo_event st = .ok tOpt ∧
        evs = [start_game_event, sk] ++ tOpt.toList ++
          [Event.dahai (actorOf st) pai tsg, ryukyoku_event st,
           Event.end_kyoku, Event.end_game] ∧
        (tsg = true ↔ ∃ a, tOpt = some (.tsumo a pai)) ∧
        (tOpt = none → tsg = false) ∧
        (tOpt ≠ none ↔ 13 < (st.hand_tiles.getD []).length) := by
  intro st evs h
  simp only [convert_row] at h
  split at h
  · exact absurd h (by simp)
  next tOpt ht =>
    split at h
    · exact absurd h (by simp)
    next sk hsk =>
      split at h
      · exact absurd h (by simp)
      next mid hb =>
        cases h
        simp only [run_builder] at hb
        obtain ⟨d, hd, hmid⟩ := except_map_singleton_inv hb
        obtain ⟨a, ts, t0, pai, _, _, _, _, hdah⟩ := discard_event_inv hd
        subst hmid
        subst hdah
        refine ⟨sk, tOpt, pai, tsumogiri_flag (tsumo_pai tOpt) pai, ht,
          by simp [tail_events], ?_, ?_, ?_⟩
        · cases tOpt with
          | none => simp [tsumo_pai, tsumogiri_flag]
          | some e =>
            obtain ⟨_, p, hp, _⟩ := tsumo_event_some_inv ht
            subst hp
            simp only [tsumo_pai, tsumogiri_flag]
            constructor
            · intro hbeq
              exact ⟨actorOf st, by simp [beq_iff_eq.mp hbeq]⟩
            · rintro ⟨a', ha'⟩
              have hpp : p = pai := by
                cases Option.some.inj ha'
                rfl
              simp [hpp]
        · rintro rfl
          simp [tsumo_pai, tsumogiri_flag]
        · constructor
          · intro hne
            cases htO : tOpt with
            | none => exact absurd htO hne
            | some e =>
              rw [htO] at ht
              exact (tsumo_event_some_inv ht).1
          · intro hlen htO
            rw [htO] at ht
            have := tsumo_event_none_inv ht
            omega

theorem discard_tsumogiri_spec_witness :
    convert_row .Discard stC6 = .ok
      [start_game_event,
       .start_kyoku "E" "1m" 1 0 0 0 [250, 250, 250, 250]
         [List.replicate 13 "?", List.replicate 13 "?",
          ["1m", "1m", "1m", "2m", "2m", "2m", "3m", "3m", "3m",
           "4m", "4m", "4m", "5m"],
          List.replicate 13 "?"],
       .tsumo 2 "3m", .dahai 2 "3m" true, ryukyoku_event stC6,
       .end_kyoku, .end_game] ∧
    ∃ sk tOpt pai tsg,
      tsumo_event stC6 = .ok tOpt ∧
      ([start_game_event,
        .start_kyoku "E" "1m" 1 0 0 0 [250, 250, 250, 250]
          [List.replicate 13 "?", List.replicate 13 "?",
           ["1m", "1m", "1m", "2m", "2m", "2m", "3m", "3m", "3m",
            "4m", "4m", "4m", "5m"],
           List.replicate 13 "?"],
        .tsumo 2 "3m", .dahai 2 "3m" true, ryukyoku_event stC6,
        .end_kyoku, .end_game] : List Event) =
        [start_game_event, sk] ++ tOpt.toList ++
          [Event.dahai (actorOf stC6) pai tsg, ryukyoku_event stC6,
           Event.end_kyoku, Event.end_game] ∧
      (tsg = true ↔ ∃ a, tOpt = some (.tsumo a pai)) ∧
      (tOpt = none → tsg = false) ∧
      (tOpt ≠ none ↔ 13 < (stC6.hand_tiles.getD []).length) :=
  ⟨rfl, discard_tsumogiri_spec stC6 _ rfl⟩

/-! ## The start_kyoku event's fields -/

theorem pad13_length (l : List String) (h : l.length ≤ 13) :
    (pad13 l).length = 13 := by
  simp [pad13]
  omega

theorem pySet_in_range {α : Type} (l : List α) (i : Int) (x : α)
    (h0 : 0 ≤ i) (hlt : i.toNat < l.length) :
    pySet l i x = .ok (l.set i.toNat x) := by
  simp only [pySet]
  rw [if_neg (not_lt.mpr h0), if_neg (not_lt.mpr h0), if_pos hlt]

/-- C9: for a snapshot whose actor index is in `[0, 3]` and whose dora
indicator and hand tiles all decode, the `start_kyoku` event carries the
claimed fields: wind lookup with default `"E"`, clamped kyoku, verbatim
honba/kyotaku/oya, the four seats' points in order, and the tehais array
that is `"?"×13` everywhere except the actor's seat, which holds the first
13 decoded hand tiles right-padded with `"?"`; moreover an absent or empty
dora-indicator list defaults to tile id 0. -/
theorem start_kyoku_fields_spec :
    (∀ (st : GameState) (decoded : List String) (dm : String),
      0 ≤ actorOf st → actorOf st ≤ 3 →
      (st.hand_tiles.getD []).mapM tile_id_to_mjai = .ok decoded →
      tile_id_to_mjai ((dora_markers st).headD 0) = .ok dm →
      start_kyoku_event st = .ok (.start_kyoku
        (WIND_TO_TILE (st.round_wind.getD 0)) dm
        (max 1 (min 4 (st.kyoku.getD 1)))
        (st.num_honba.getD 0) (st.num_riichi.getD 0) (st.oya.getD 0)
        (List.ofFn (fun i : Fin 4 => (st.seats i).points))
        ((List.replicate 4 (List.replicate 13 "?")).set (actorOf st).toNat
          (decoded.take 13 ++
            List.replicate (13 - (decoded.take 13).length) "?")))) ∧
    (∀ st : GameState,
      st.dora_indicators = none ∨ st.dora_indicators = some [] →
      dora_markers st = [0]) := by
  constructor
  · intro st decoded dm h0 h3 hmap hdm
    have htake : (pad13 (decoded.take 13)).take 13 = pad13 (decoded.take 13) :=
      List.take_of_length_le (by rw [pad13_length _ (by simp)])
    simp only [start_kyoku_event, hdm, hmap]
    rw [htake, pySet_in_range _ _ _ h0 (by simp only [List.length_replicate]; omega)]
    simp [pad13]
  · intro st h
    rcases h with h | h <;> simp [dora_markers, h]

theorem start_kyoku_fields_spec_witness :
    (0 ≤ actorOf stC9 ∧ actorOf stC9 ≤ 3 ∧
      (stC9.hand_tiles.getD []).mapM tile_id_to_mjai = .ok ["1m", "2m", "3m"] ∧
      tile_id_to_mjai ((dora_markers stC9).headD 0) = .ok "1m" ∧
      start_kyoku_event stC9 = .ok (.start_kyoku
        (WIND_TO_TILE (stC9.round_wind.getD 0)) "1m"
        (max 1 (min 4 (stC9.kyoku.getD 1)))
        (stC9.num_honba.getD 0) (stC9.num_riichi.getD 0) (stC9.oya.getD 0)
        (List.ofFn (fun i : Fin 4 => (stC9.seats i).points))
        ((List.replicate 4 (List.replicate 13 "?")).set (actorOf stC9).toNat
          ((["1m", "2m", "3m"] : List String).take 13 ++
            List.replicate (13 - ((["1m", "2m", "3m"] : List String).take 13).length) "?")))) ∧
    dora_markers stC9 = [0] :=
  ⟨⟨by decide, by decide, rfl, rfl,
    start_kyoku_fields_spec.1 stC9 ["1m", "2m", "3m"] "1m"
      (by decide) (by decide) rfl rfl⟩,
   start_kyoku_fields_spec.2 stC9 (Or.inr rfl)⟩

/-! ## tiles_from_action on unequal-length lists -/

theorem zip_append_left (ts ws extra : List Int) (h : ts.length = ws.length) :
    (ts ++ extra).zip ws = ts.zip ws := by
  induction ts generalizing ws with
  | nil =>
    cases ws with
    | nil => simp
    | cons b ws => simp at h
  | cons a ts ih =>
    cases ws with
    | nil => simp at h
    | cons b ws => simp [ih ws (by simpa using h)]

theorem zip_append_right (ts ws extra : List Int) (h : ts.length = ws.length) :
    ts.zip (ws ++ extra) = ts.zip ws := by
  induction ts generalizing ws with
  | nil => simp
  | cons a ts ih =>
    cases ws with
    | nil => simp at h
    | cons b ws => simp [ih ws (by simpa using h)]

/-- C10: `tiles_from_action` never fails on unequal-length `tiles` / `who`
lists (it is a total function): the surplus entries of the longer list are
silently dropped, every returned pair has a non-negative tile id, each pair
comes from one shared index of the two lists, and the pair count never
exceeds the shorter length. -/
theorem tiles_from_action_spec :
    (∀ (ts ws extra : List Int), ts.length = ws.length →
      tiles_from_action ⟨some (ts ++ extra), some ws⟩ =
        tiles_from_action ⟨some ts, some ws⟩) ∧
    (∀ (ts ws extra : List Int), ts.length = ws.length →
      tiles_from_action ⟨some ts, some (ws ++ extra)⟩ =
        tiles_from_action ⟨some ts, some ws⟩) ∧
    (∀ (a : Action), ∀ p ∈ tiles_from_action a, 0 ≤ p.1 ∧
      ∃ i : Nat, (a.tiles.getD [])[i]? = some p.1 ∧
        (a.who.getD [])[i]? = some p.2) ∧
    (∀ a : Action, (tiles_from_action a).length ≤
      min (a.tiles.getD []).length (a.who.getD []).length) := by
  refine ⟨?_, ?_, ?_, ?_⟩
  · intro ts ws extra h
    simp [tiles_from_action, zip_append_left ts ws extra h]
  · intro ts ws extra h
    simp [tiles_from_action, zip_append_right ts ws extra h]
  · intro a p hp
    have hmem := List.mem_filter.mp hp
    refine ⟨by simpa using hmem.2, ?_⟩
    obtain ⟨i, hi, hget⟩ := List.mem_iff_getElem.mp hmem.1
    have hlen := hi
    rw [List.length_zip] at hlen
    have h1 : i < (a.tiles.getD []).length := by omega
    have h2 : i < (a.who.getD []).length := by omega
    refine ⟨i, ?_, ?_⟩
    · rw [List.getElem?_eq_getElem h1]
      rw [List.getElem_zip] at hget
      simp [← hget]
    · rw [List.getElem?_eq_getElem h2]
      rw [List.getElem_zip] at hget
      simp [← hget]
  · intro a
    calc (tiles_from_action a).length
        ≤ ((a.tiles.getD []).zip (a.who.getD [])).length :=
          List.length_filter_le _ _
      _ = min (a.tiles.getD []).length (a.who.getD []).length :=
          List.length_zip _ _

theorem tiles_from_action_spec_witness :
    ([5, 9] : List Int).length = ([0, 1] : List Int).length ∧
    tiles_from_action ⟨some ([5, 9] ++ [7, 7]), some [0, 1]⟩ =
      tiles_from_action ⟨some [5, 9], some [0, 1]⟩ ∧
    tiles_from_action ⟨some [5, 9], some ([0, 1] ++ [2])⟩ =
      tiles_from_action ⟨some [5, 9], some [0, 1]⟩ :=
  ⟨by decide,
   tiles_from_action_spec.1 [5, 9] [0, 1] [7, 7] (by decide),
   tiles_from_action_spec.2.1 [5, 9] [0, 1] [2] (by decide)⟩

/-! ## Empty-table rejection -/

/-- C8: for every category, converting an empty row list fails with the
`EmptyCategory` error and its effect trace is empty — in particular the
output directory is never ensured and the output stream never opened, so no
output file for the category is created. -/
theorem convert_table_empty_spec :
    ∀ c : Category,
      convert_table c [] = ([], some Err.emptyCategory) ∧
      (convert_table c []).1 = [] := by
  intro c
  exact ⟨rfl, rfl⟩

end Mortal
